import Mathlib

/-!
Shallow embedding of the konek/rest dispatch layer (src/router.go, src/error.go).

src/router.go contains three revisions of the package, concatenated.  The
current revision (the one with cookie emission, redirects, the raw
content-type bypass and the ErrorTransparent logging hook) is the middle
segment, lines 220-547 of the file; it is the revision the specification
describes and is embedded below as `Rest.getFormat`, `Rest.Parse`,
`Rest.output`, `Rest.outputContentType` and `Rest.handler`.  The oldest
revision (lines 548-704, JSON/XML only, no variable shadowing in Parse) is
embedded as `Rest.getFormatLegacy` / `Rest.ParseLegacy` for comparison.

External collaborators are modelled as parameters or request attributes:
- json.Unmarshal / xml.Unmarshal are parameters `ju xu : List Nat -> Option
  String` returning the error message on failure, `none` on success; the
  population of the target value `v` is an external side effect, recorded in
  the returned `DecodeCall` trace (which unmarshaler was invoked on which
  bytes).
- ioutil.ReadAll of the request body is the request attribute `body`
  (`none` models a read error).
- the error of r.ParseForm is the request attribute `parseFormErr`; the
  own result of the reflection-driven `parseForm` helper (which depends only on
  the target value, not on the request) is a parameter `pfe`.
- json.Marshal / xml.Marshal in `output` are modelled as total (they never
  fail on the struct-of-string/int value types this repository serializes);
  the produced bytes are kept symbolic as `Body.encoded format payload`.
- Go map iteration order over the cookie map is unspecified; the model fixes
  the order of the association list.  All properties proved about cookies are
  order-insensitive (membership / pointwise facts).
- log.Printf / log.Println calls have no effect on the response and are not
  modelled.
-/

namespace Rest

/-- The three wire formats, `formatJSON`, `formatXML`, `formatFORM`
(router.go lines 235-239). -/
inductive Format
  | json
  | xml
  | form
deriving DecidableEq, Repr

/-- An incoming request, restricted to the attributes the dispatch layer
reads.  `headers` models r.Header (a map with unique canonical keys, hence an
association list); `body` models what ioutil.ReadAll(r.Body) yields (`none` =
read error); `postForm` models r.PostForm after a successful r.ParseForm();
`parseFormErr` models the error returned by r.ParseForm(). -/
structure Request where
  headers : List (String × List String)
  body : Option (List Nat)
  postForm : List (String × List String)
  parseFormErr : Option String

/-- First recognized MIME string in a header value list: the loop body of
getFormat (router.go lines 380-390). -/
def scanFormats : List String → Option Format
  | [] => none
  | v :: rest =>
    if v = "application/json" then some .json
    else if v = "application/xml" then some .xml
    else if v = "application/x-www-form-urlencoded" then some .form
    else scanFormats rest

/-- getFormat (router.go lines 379-392): scan the values of the given header
field in order and return the first recognized format with found = true;
return (JSON, false) when the header is absent or no value is recognized.
The same three-way match is applied whatever the field is, so an Accept
header can yield FORM. -/
def getFormat (r : Request) (field : String) : Format × Bool :=
  match r.headers.lookup field with
  | some header =>
    match scanFormats header with
    | some f => (f, true)
    | none => (.json, false)
  | none => (.json, false)

/-- Trace of which external decode routine Parse invoked on which input:
json.Unmarshal(chunk, v), xml.Unmarshal(chunk, v) or parseForm(r.PostForm, v). -/
inductive DecodeCall
  | jsonUnmarshal (chunk : List Nat)
  | xmlUnmarshal (chunk : List Nat)
  | parseFormFields (form : List (String × List String))
deriving DecidableEq, Repr

/-- A Go error value as returned by Parse: either a rest.Error500 value
(which carries StatusCode() = 500) or a plain errors.New error. -/
inductive GoError
  | error500 (message : String)
  | plain (message : String)
deriving DecidableEq, Repr

/-- The body of Parse after the input format has been selected (router.go
lines 351-375).  Returns the decode call performed (if any) together with the
error Parse returns (`none` = nil).

Faithfulness notes, traced against the source:
- JSON branch (lines 351-357): `chunk, err := ioutil.ReadAll(r.Body)` is a
  short variable declaration inside the if-block, so this `err` SHADOWS the
  `var err error` declared at the top of Parse; `err = json.Unmarshal(chunk, v)`
  then assigns the shadowed inner variable.  The outer err is still nil when
  the trailing `if err != nil` check runs, so the unmarshal failure `ju chunk`
  is dropped (modelled by the unused let binding) and the branch returns nil.
- XML branch (lines 358-364): same shadowing, same consequence.
- FORM branch (lines 365-369): `err = r.ParseForm()` assigns the OUTER err
  (plain `=`, not `:=`), and on success `err = parseForm(r.PostForm, v)` does
  too, so here failures do reach the trailing check and become
  Error500 with message "failed to parse body: " plus the error text.
- The final else branch returning errors.New of an unknown-output-format
  message (lines 370-371) is unreachable: `Format` has exactly the three
  constructors the comparisons cover. -/
def parseBody (ju xu : List Nat → Option String) (pfe : Option String)
    (r : Request) (inputFormat : Format) : Option DecodeCall × Option GoError :=
  match inputFormat with
  | .json =>
    match r.body with
    | none => (none, some (.error500 "failed to read body"))
    | some chunk =>
      let _errShadowed := ju chunk
      (some (.jsonUnmarshal chunk), none)
  | .xml =>
    match r.body with
    | none => (none, some (.error500 "failed to read body"))
    | some chunk =>
      let _errShadowed := xu chunk
      (some (.xmlUnmarshal chunk), none)
  | .form =>
    match r.parseFormErr with
    | some e => (none, some (.error500 ("failed to parse body: " ++ e)))
    | none =>
      match pfe with
      | some e => (some (.parseFormFields r.postForm), some (.error500 ("failed to parse body: " ++ e)))
      | none => (some (.parseFormFields r.postForm), none)

/-- Parse, current revision (router.go lines 339-377).  Selects the input
format: the Content-Type-derived format when one of its values is recognized,
otherwise the Accept-derived format (the early return for an unrecognized
non-empty Content-Type, lines 345-347, is commented out in this revision and
has no effect), then decodes via `parseBody`. -/
def Parse (ju xu : List Nat → Option String) (pfe : Option String)
    (r : Request) : Option DecodeCall × Option GoError :=
  let outputFormat := (getFormat r "Accept").fst
  let inputFound := getFormat r "Content-Type"
  let inputFormat := if inputFound.snd then inputFound.fst else outputFormat
  parseBody ju xu pfe r inputFormat

/-- getFormat of the oldest revision (router.go lines 647-659): identical
scan but it only recognizes application/json and application/xml. -/
def getFormatLegacy (r : Request) (field : String) : Format × Bool :=
  match r.headers.lookup field with
  | some header =>
    match scanFormats header with
    | some .json => (.json, true)
    | some .xml => (.xml, true)
    | _ => (.json, false)
  | none => (.json, false)

/-- First value stored under a header key, for the legacy unsupported
Content-Type message (router.go line 592 takes element 0 of header; the guard
ensures the list is non-empty). -/
def headerFirst (r : Request) (field : String) : String :=
  match r.headers.lookup field with
  | some (v :: _) => v
  | _ => ""

/-- Whether a header key is present with a non-empty value list
(router.go line 591: ok and len(header) != 0). -/
def headerPresentNonEmpty (r : Request) (field : String) : Bool :=
  match r.headers.lookup field with
  | some (_ :: _) => true
  | _ => false

/-- Parse, oldest revision (router.go lines 587-613).  Differences from the
current revision: an unrecognized non-empty Content-Type is a hard
Error500 failure; the body is read once up front; and `chunk, err :=` sits at
function scope, so `err = json.Unmarshal(chunk, v)` assigns the SAME err the
trailing check reads — unmarshal failures are reported as
Error500 with message "failed to parse body: " plus the error text. -/
def ParseLegacy (ju xu : List Nat → Option String) (r : Request) :
    Option DecodeCall × Option GoError :=
  let outputFormat := (getFormatLegacy r "Accept").fst
  let inputFound := getFormatLegacy r "Content-Type"
  if inputFound.snd = false ∧ headerPresentNonEmpty r "Content-Type" then
    (none, some (.error500 ("unsupported Content-Type: " ++ headerFirst r "Content-Type")))
  else
    let inputFormat := if inputFound.snd then inputFound.fst else outputFormat
    match r.body with
    | none => (none, some (.error500 "failed to read body"))
    | some chunk =>
      match inputFormat with
      | .json =>
        match ju chunk with
        | some e => (some (.jsonUnmarshal chunk), some (.error500 ("failed to parse body: " ++ e)))
        | none => (some (.jsonUnmarshal chunk), none)
      | .xml =>
        match xu chunk with
        | some e => (some (.xmlUnmarshal chunk), some (.error500 ("failed to parse body: " ++ e)))
        | none => (some (.xmlUnmarshal chunk), none)
      | .form => (none, some (.plain "unknown output format"))

/-- rest.Error500 (src/error.go lines 9-11): an error struct holding a
message, whose StatusCode() method returns 500. -/
structure Error500 where
  Message : String
deriving DecidableEq, Repr

/-- NewError500 (src/error.go lines 14-19).  The message literal is taken
from the source byte for byte; note the source spells "occured". -/
def NewError500 : Error500 :=
  ⟨"an unexpected error occured, please contact an administrator"⟩

/-- A handler-returned error value: `message` is Error() string;
`statusCode = some s` models a dynamic type implementing the rest.Error
interface with StatusCode() returning s, `none` a type that does not;
`parent` likewise models the ErrorTransparent interface, which the handler
only logs (no response effect). -/
structure ErrValue where
  message : String
  statusCode : Option Int
  parent : Option String
deriving DecidableEq, Repr

/-- A handler-returned success value, with its optional capabilities made
explicit.  Each hasX flag models whether the dynamic type satisfies the
corresponding interface assertion in handler: `hasResp` for Resp
(StatusCode() plus Location()), `hasCookieSetter` for ICookieSetter
(`cookiesNil` models GetCookies() returning a nil map), `hasRespCType` for
RespCType (ContentType() plus Data()). -/
structure RespValue where
  hasResp : Bool
  statusCode : Int
  location : String
  hasCookieSetter : Bool
  cookiesNil : Bool
  cookies : List (String × String)
  hasRespCType : Bool
  contentType : String
  rawData : List Nat
deriving DecidableEq, Repr

/-- The fields of the http.Cookie values the handler constructs. -/
structure GoCookie where
  name : String
  value : String
  path : String
  maxAge : Int
deriving DecidableEq, Repr

/-- The Go value handed to json.Marshal / xml.Marshal inside output: the
success value (the interface value resp, possibly nil), a handler error
value, or the synthesized Error500. -/
inductive Payload
  | respVal (v : Option RespValue)
  | errVal (e : ErrValue)
  | generic500 (e : Error500)
deriving DecidableEq, Repr

/-- The response body written, kept symbolic: `encoded` stands for the bytes
json.Marshal / xml.Marshal produces for the payload, `raw` for bytes written
verbatim by outputContentType. -/
inductive Body
  | encoded (format : Format) (data : Payload)
  | raw (bytes : List Nat)
deriving DecidableEq, Repr

/-- The observable state of the http.ResponseWriter: the Content-Type header
(Set overwrites), the Location header values (Add appends), the Set-Cookie
list, the status code passed to WriteHeader (`none` = never called) and the
body written (`none` = never written). -/
structure ResponseWriter where
  contentType : Option String
  locationHeaders : List String
  setCookies : List GoCookie
  status : Option Int
  body : Option Body
deriving DecidableEq, Repr

/-- A fresh response writer: nothing set, nothing written. -/
def ResponseWriter.init : ResponseWriter :=
  ⟨none, [], [], none, none⟩

/-- output (router.go lines 403-423): marshal the data for the format, set
the (misspelled, as in the source) Content-Type header, write the status and
the bytes; for any other format — which, Accept-side, means FORM — return an
unknown-output-format error before anything is set or written. -/
def output (w : ResponseWriter) (code : Int) (data : Payload) (format : Format) :
    ResponseWriter × Option GoError :=
  match format with
  | .json =>
    ({ w with contentType := some "aplication/json",
              status := some code, body := some (.encoded .json data) }, none)
  | .xml =>
    ({ w with contentType := some "aplication/xml",
              status := some code, body := some (.encoded .xml data) }, none)
  | .form => (w, some (.plain "unknown output format"))

/-- outputContentType (router.go lines 394-401): set the caller-supplied
Content-Type string, write the status and the raw bytes; never fails. -/
def outputContentType (w : ResponseWriter) (code : Int) (data : List Nat)
    (format : String) : ResponseWriter × Option GoError :=
  ({ w with contentType := some format, status := some code,
            body := some (.raw data) }, none)

/-- The http.Cookie the handler emits for one cookie-map entry (router.go
lines 459-474): an empty value yields a deletion cookie with the literal
value "nil", root path and MaxAge -1; a non-empty value yields a persistent
cookie with root path and MaxAge 24 hours. -/
def cookieFor (name value : String) : GoCookie :=
  if value.length = 0 then ⟨name, "nil", "/", -1⟩
  else ⟨name, value, "/", 24 * 60 * 60⟩

/-- The statusCode / location pair the handler computes before writing
(router.go lines 448-455): default (200, "") unless the value implements
Resp AND its StatusCode() is nonzero, in which case both are taken from the
value. -/
def shapeStatusLocation (resp : Option RespValue) : Int × String :=
  match resp with
  | some v =>
    if v.hasResp then
      if v.statusCode ≠ 0 then (v.statusCode, v.location) else (200, "")
    else (200, "")
  | none => (200, "")

/-- The cookies the handler emits (router.go lines 456-477): one per entry of
the cookie map when the value implements ICookieSetter and GetCookies() is
not nil, nothing otherwise. -/
def emitCookies (resp : Option RespValue) : List GoCookie :=
  match resp with
  | some v =>
    if v.hasCookieSetter then
      if v.cookiesNil then []
      else v.cookies.map fun nv => cookieFor nv.fst nv.snd
    else []
  | none => []

/-- handler (router.go lines 425-492), as a function from the return pair of
the controller (resp, err) and the request to the final response-writer state.
Error path (err non-nil, lines 429-446): log (no effect), then write the
error itself with its own status when it implements rest.Error, else the
NewError500 value with status 500; return.  Success path (lines 448-491):
compute status/location, emit cookies, add the Location header when location
is non-empty, then either the raw outputContentType write (value implements
RespCType) or the format-based output write.  Errors returned by the writes
are only logged. -/
def handler (r : Request) (resp : Option RespValue) (errv : Option ErrValue) :
    ResponseWriter :=
  let outputFormat := (getFormat r "Accept").fst
  match errv with
  | some e =>
    match e.statusCode with
    | some sc => (output .init sc (.errVal e) outputFormat).fst
    | none => (output .init 500 (.generic500 NewError500) outputFormat).fst
  | none =>
    let sl := shapeStatusLocation resp
    let w1 : ResponseWriter :=
      { contentType := none, locationHeaders := [], setCookies := emitCookies resp,
        status := none, body := none }
    let w2 := if sl.snd ≠ "" then
        { w1 with locationHeaders := w1.locationHeaders ++ [sl.snd] }
      else w1
    match resp with
    | some v =>
      if v.hasRespCType then (outputContentType w2 sl.fst v.rawData v.contentType).fst
      else (output w2 sl.fst (.respVal resp) outputFormat).fst
    | none => (output w2 sl.fst (.respVal resp) outputFormat).fst

/-- An auxiliary string fact: a string of length zero is the empty string
(used to relate the len check in the source to emptiness). -/
theorem string_length_zero (s : String) : s.length = 0 → s = "" := by
  intro h
  cases s with
  | mk data =>
    cases data with
    | nil => rfl
    | cons c cs => simp [String.length] at h

/-- Whether the success value implements RespCType (false for a nil resp). -/
def hasRawCType : Option RespValue → Bool
  | none => false
  | some v => v.hasRespCType

/-- Whether the success value has no Resp capability or a StatusCode() of
zero (true for a nil resp). -/
def statusCapZeroOrAbsent : Option RespValue → Bool
  | none => true
  | some v => !v.hasResp || v.statusCode == 0

/-- The error path of handler, written out: with its own status and itself
as payload when the error implements rest.Error, else status 500 and the
NewError500 value. -/
theorem handler_error_eq (r : Request) (resp : Option RespValue) (e : ErrValue) :
    handler r resp (some e) =
      (match e.statusCode with
       | some sc => (output .init sc (.errVal e) (getFormat r "Accept").fst).fst
       | none => (output .init 500 (.generic500 NewError500) (getFormat r "Accept").fst).fst) := rfl

/-- On the success path the emitted cookies are exactly `emitCookies resp`,
on every branch (raw or format-based write, any Accept header, any location). -/
theorem handler_setCookies (r : Request) (resp : Option RespValue) :
    (handler r resp none).setCookies = emitCookies resp := by
  cases resp with
  | none =>
    cases hf : (getFormat r "Accept").fst <;>
      simp [handler, output, hf, apply_ite (ResponseWriter.setCookies)]
  | some v =>
    by_cases hc : v.hasRespCType <;>
      cases hf : (getFormat r "Accept").fst <;>
        simp [handler, output, outputContentType, hc, hf,
          apply_ite (ResponseWriter.setCookies)]

/-- On the success path the Location header is added exactly when the
computed location is non-empty, on every branch. -/
theorem handler_locationHeaders (r : Request) (resp : Option RespValue) :
    (handler r resp none).locationHeaders =
      (if (shapeStatusLocation resp).snd ≠ "" then [(shapeStatusLocation resp).snd] else []) := by
  cases resp with
  | none =>
    cases hf : (getFormat r "Accept").fst <;>
      simp [handler, output, hf, apply_ite (ResponseWriter.locationHeaders)]
  | some v =>
    by_cases hc : v.hasRespCType <;>
      cases hf : (getFormat r "Accept").fst <;>
        simp [handler, output, outputContentType, hc, hf,
          apply_ite (ResponseWriter.locationHeaders)]

/-- Status, body and Content-Type written on the success path for a value
implementing RespCType: the computed status, the raw bytes and the
caller-supplied content type, for every request. -/
theorem handler_raw_fields (r : Request) (v : RespValue) (h : v.hasRespCType = true) :
    (handler r (some v) none).status = some (shapeStatusLocation (some v)).fst ∧
    (handler r (some v) none).body = some (.raw v.rawData) ∧
    (handler r (some v) none).contentType = some v.contentType := by
  refine ⟨?_, ?_, ?_⟩ <;>
    simp [handler, outputContentType, h,
      apply_ite (ResponseWriter.status), apply_ite (ResponseWriter.body),
      apply_ite (ResponseWriter.contentType)]

/-- Status, body and Content-Type written on the success path without the
raw bypass: nothing at all when the Accept-derived format is FORM (output
fails with unknown output format before writing), otherwise the computed
status, the encoded payload and the (misspelled) format content type. -/
theorem handler_nonraw_fields (r : Request) (resp : Option RespValue)
    (h : hasRawCType resp = false) :
    (handler r resp none).status =
      (if (getFormat r "Accept").fst = Format.form then none
       else some (shapeStatusLocation resp).fst) ∧
    (handler r resp none).body =
      (if (getFormat r "Accept").fst = Format.form then none
       else some (.encoded (getFormat r "Accept").fst (.respVal resp))) ∧
    (handler r resp none).contentType =
      (if (getFormat r "Accept").fst = Format.form then none
       else if (getFormat r "Accept").fst = Format.json then some "aplication/json"
       else some "aplication/xml") := by
  cases resp with
  | none =>
    cases hf : (getFormat r "Accept").fst <;>
      refine ⟨?_, ?_, ?_⟩ <;>
        simp [handler, output, hf,
          apply_ite (ResponseWriter.status), apply_ite (ResponseWriter.body),
          apply_ite (ResponseWriter.contentType)]
  | some v =>
    simp [hasRawCType] at h
    cases hf : (getFormat r "Accept").fst <;>
      refine ⟨?_, ?_, ?_⟩ <;>
        simp [handler, output, h, hf,
          apply_ite (ResponseWriter.status), apply_ite (ResponseWriter.body),
          apply_ite (ResponseWriter.contentType)]

/-- The status the success path selects: the StatusCode() of the value when
it implements Resp and that code is nonzero, 200 otherwise. -/
theorem shapeStatusLocation_fst (resp : Option RespValue) :
    (shapeStatusLocation resp).fst =
      (match resp with
       | some v => if v.hasResp = true ∧ v.statusCode ≠ 0 then v.statusCode else 200
       | none => 200) := by
  cases resp with
  | none => rfl
  | some v =>
    by_cases h1 : v.hasResp <;> by_cases h2 : v.statusCode = 0 <;>
      simp [shapeStatusLocation, h1, h2]

/-- A request carrying only an Accept header naming application/json. -/
def reqAcceptJson : Request := ⟨[("Accept", ["application/json"])], none, [], none⟩

/-- A request carrying only an Accept header naming application/xml. -/
def reqAcceptXml : Request := ⟨[("Accept", ["application/xml"])], none, [], none⟩

/-- A request carrying only an Accept header naming
application/x-www-form-urlencoded. -/
def reqAcceptForm : Request := ⟨[("Accept", ["application/x-www-form-urlencoded"])], none, [], none⟩

/-- A success value implementing none of the optional capabilities. -/
def plainResp : RespValue := ⟨false, 0, "", false, false, [], false, "", []⟩

/-- A success value implementing only ICookieSetter, with one entry to be
deleted (name a, empty value) and one to be set (name b, value v). -/
def cookieResp : RespValue := ⟨false, 0, "", true, false, [("a", ""), ("b", "v")], false, "", []⟩

/-- C1: the claim says that for a body malformed for the negotiated decode
format (JSON or XML), Parse returns a Structured Error with status 500 whose
message starts with "failed to parse body: " followed by the unmarshal error
text.  The current code does not: at the request with Content-Type
application/json and the malformed one-byte body 123 (an opening brace), and
for EVERY unmarshal outcome ju and xu — in particular any failing one —
Parse invokes json.Unmarshal on the body and returns nil, because the
unmarshal result is assigned to the shadowed err variable and lost.  This is
a code bug: the own trailing failed-to-parse check of Parse (reachable for
FORM only), the oldest revision of Parse (see
`parseLegacy_reports_unmarshal_failure`) and the spec all expect the error
to be reported. -/
theorem c1_parse_swallows_unmarshal_error :
    ∀ ju xu : List Nat → Option String,
      Parse ju xu none ⟨[("Content-Type", ["application/json"])], some [123], [], none⟩
        = (some (.jsonUnmarshal [123]), none) := fun _ _ => rfl

/-- The oldest revision of Parse, which has no shadowing, reports the same
malformed body exactly as claim C1 describes: Error500 with message
"failed to parse body: " followed by the unmarshal error text m. -/
theorem parseLegacy_reports_unmarshal_failure :
    ∀ m : String,
      ParseLegacy (fun _ => some m) (fun _ => none)
        ⟨[("Content-Type", ["application/json"])], some [123], [], none⟩
        = (some (.jsonUnmarshal [123]), some (.error500 ("failed to parse body: " ++ m))) :=
  fun _ => rfl

/-- C2 counterexample: the claim says encode negotiation over Accept never
yields FORM; but for the request whose Accept value is
application/x-www-form-urlencoded, getFormat — which is exactly what handler
calls to pick the encode format — returns FORM. -/
theorem c2_counterexample :
    (getFormat reqAcceptForm "Accept").fst = Format.form := by decide

/-- C2 amended: getFormat applies the same three-way MIME match to Accept as
to Content-Type, so encode negotiation yields FORM when the first recognized
Accept value is application/x-www-form-urlencoded; in that case output
rejects the format with an unknown-output-format error, and for a non-raw
success value the handler writes no status, no body and no Content-Type. -/
theorem c2_amended_form_negotiation (r : Request) (v : RespValue)
    (h : (getFormat r "Accept").fst = Format.form) :
    (handler r (some { v with hasRespCType := false }) none).status = none ∧
    (handler r (some { v with hasRespCType := false }) none).body = none ∧
    (handler r (some { v with hasRespCType := false }) none).contentType = none := by
  have h3 := handler_nonraw_fields r (some { v with hasRespCType := false }) rfl
  rw [h] at h3
  simpa using h3

/-- C2 amended, witnessed at the form-Accept request and a plain value. -/
theorem c2_amended_witness :
    (handler reqAcceptForm (some { plainResp with hasRespCType := false }) none).status = none ∧
    (handler reqAcceptForm (some { plainResp with hasRespCType := false }) none).body = none ∧
    (handler reqAcceptForm (some { plainResp with hasRespCType := false }) none).contentType = none :=
  c2_amended_form_negotiation reqAcceptForm plainResp (by decide)

/-- C3 counterexample: the claim says the generic error body message equals
"an unexpected error occurred, please contact an administrator"; the code
writes the NewError500 value, whose message is spelled "occured" in
src/error.go, a different string. -/
theorem c3_counterexample :
    (handler reqAcceptJson none (some ⟨"boom", none, none⟩)).body
      = some (.encoded .json (.generic500 ⟨"an unexpected error occured, please contact an administrator"⟩)) ∧
    ("an unexpected error occured, please contact an administrator" : String)
      ≠ "an unexpected error occurred, please contact an administrator" :=
  ⟨rfl, by decide⟩

/-- C3 amended: for every handler error with no status-code capability,
provided the Accept-derived encode format is JSON or XML (see C2: a FORM
encode format makes output fail and nothing is written), the response status
is exactly 500 and the body is the serialization, in that format, of the
fixed NewError500 value — whose message is the literal
"an unexpected error occured, please contact an administrator" as spelled in
the source — independent of the original error, whose text never reaches the
body. -/
theorem c3_amended_generic_500 (r : Request) (resp : Option RespValue) (e : ErrValue)
    (hcap : e.statusCode = none) (hfmt : (getFormat r "Accept").fst ≠ Format.form) :
    (handler r resp (some e)).status = some 500 ∧
    (handler r resp (some e)).body
      = some (.encoded (getFormat r "Accept").fst (.generic500 NewError500)) := by
  rw [handler_error_eq, hcap]
  cases hf : (getFormat r "Accept").fst with
  | json => simp [output]
  | xml => simp [output]
  | form => exact absurd hf hfmt

/-- C3 amended, witnessed at a JSON-Accept request and an error named boom
with no status-code capability. -/
theorem c3_amended_witness :
    (handler reqAcceptJson none (some ⟨"boom", none, none⟩)).status = some 500 ∧
    (handler reqAcceptJson none (some ⟨"boom", none, none⟩)).body
      = some (.encoded (getFormat reqAcceptJson "Accept").fst (.generic500 NewError500)) :=
  c3_amended_generic_500 reqAcceptJson none ⟨"boom", none, none⟩ rfl (by decide)

/-- C4 counterexample: the claim says an error with status-code capability
403 always produces a response with status exactly 403; but when the Accept
value is application/x-www-form-urlencoded the negotiated encode format is
FORM, output fails, and the handler writes neither status nor body. -/
theorem c4_counterexample :
    (handler reqAcceptForm none (some ⟨"oops", some 403, none⟩)).status = none ∧
    (handler reqAcceptForm none (some ⟨"oops", some 403, none⟩)).status ≠ some 403 ∧
    (handler reqAcceptForm none (some ⟨"oops", some 403, none⟩)).body = none := by decide

/-- C4 amended: for every handler error exposing a status-code capability
with value s, provided the Accept-derived encode format is JSON or XML (see
C2), the response status is exactly s and the body is the serialization of
the error value itself in that format. -/
theorem c4_amended_error_status (r : Request) (resp : Option RespValue) (e : ErrValue) (s : Int)
    (hcap : e.statusCode = some s) (hfmt : (getFormat r "Accept").fst ≠ Format.form) :
    (handler r resp (some e)).status = some s ∧
    (handler r resp (some e)).body
      = some (.encoded (getFormat r "Accept").fst (.errVal e)) := by
  rw [handler_error_eq, hcap]
  cases hf : (getFormat r "Accept").fst with
  | json => simp [output]
  | xml => simp [output]
  | form => exact absurd hf hfmt

/-- C4 amended, witnessed at a JSON-Accept request and an error named oops
carrying status code 403. -/
theorem c4_amended_witness :
    (handler reqAcceptJson none (some ⟨"oops", some 403, none⟩)).status = some 403 ∧
    (handler reqAcceptJson none (some ⟨"oops", some 403, none⟩)).body
      = some (.encoded (getFormat reqAcceptJson "Accept").fst (.errVal ⟨"oops", some 403, none⟩)) :=
  c4_amended_error_status reqAcceptJson none ⟨"oops", some 403, none⟩ 403 rfl (by decide)

/-- C5 counterexample: the claim says a success value with no status-code
capability always yields status exactly 200; but with Accept
application/x-www-form-urlencoded and a plain (non-raw) value, output fails
on the FORM encode format and no status is written at all. -/
theorem c5_counterexample :
    (handler reqAcceptForm (some plainResp) none).status = none ∧
    (handler reqAcceptForm (some plainResp) none).status ≠ some 200 := by decide

/-- C5 amended: for every success value whose status-code capability is
absent or returns zero, the response status is exactly 200, provided the
Accept-derived encode format is JSON or XML or the value implements the raw
content-type capability (whose write does not depend on the encode format;
without either proviso, see C2, output fails and no status is written). -/
theorem c5_amended_default_200 (r : Request) (resp : Option RespValue)
    (hcap : statusCapZeroOrAbsent resp = true)
    (hok : (getFormat r "Accept").fst ≠ Format.form ∨ hasRawCType resp = true) :
    (handler r resp none).status = some 200 := by
  have hsl : (shapeStatusLocation resp).fst = 200 := by
    cases resp with
    | none => rfl
    | some v =>
      simp [statusCapZeroOrAbsent] at hcap
      rcases hcap with h | h
      · simp [shapeStatusLocation, h]
      · simp [shapeStatusLocation, h]
  cases hraw : hasRawCType resp with
  | true =>
    cases resp with
    | none => simp [hasRawCType] at hraw
    | some v =>
      have h := handler_raw_fields r v (by simpa [hasRawCType] using hraw)
      rw [h.1, hsl]
  | false =>
    have h := (handler_nonraw_fields r resp hraw).1
    rcases hok with hne | htrue
    · rw [h, if_neg hne, hsl]
    · rw [hraw] at htrue; exact absurd htrue (by simp)

/-- C5 amended, witnessed at a JSON-Accept request and a plain value. -/
theorem c5_amended_witness :
    (handler reqAcceptJson (some plainResp) none).status = some 200 :=
  c5_amended_default_200 reqAcceptJson (some plainResp) (by decide) (Or.inl (by decide))

/-- C6: when no Content-Type value matches a recognized format, Parse
decodes the body with the Accept-derived encode format.  Three parts: for
every request whose Content-Type negotiation reports not-found, Parse equals
the decode of its body at the Accept-derived format; in particular, with no
Content-Type and Accept application/xml the body bytes go to xml.Unmarshal;
and an entirely unrecognized Content-Type value behaves exactly like an
absent Content-Type header — Parse never fails on account of it. -/
theorem c6_parse_fallback :
    (∀ (ju xu : List Nat → Option String) (pfe : Option String) (r : Request),
        (getFormat r "Content-Type").snd = false →
        Parse ju xu pfe r = parseBody ju xu pfe r (getFormat r "Accept").fst) ∧
    (∀ (ju xu : List Nat → Option String) (pfe : Option String) (body : List Nat)
        (pf : List (String × List String)) (pferr : Option String),
        Parse ju xu pfe ⟨[("Accept", ["application/xml"])], some body, pf, pferr⟩
          = (some (.xmlUnmarshal body), none)) ∧
    (∀ (ju xu : List Nat → Option String) (pfe : Option String) (body : Option (List Nat))
        (pf : List (String × List String)) (pferr : Option String),
        Parse ju xu pfe
            ⟨[("Content-Type", ["text/plain"]), ("Accept", ["application/xml"])], body, pf, pferr⟩
          = Parse ju xu pfe ⟨[("Accept", ["application/xml"])], body, pf, pferr⟩) := by
  refine ⟨?_, ?_, ?_⟩
  · intro ju xu pfe r h
    simp [Parse, h]
  · intro ju xu pfe body pf pferr
    rfl
  · intro ju xu pfe body pf pferr
    rfl

/-- C6, witnessed at the XML-Accept request with no Content-Type header. -/
theorem c6_witness :
    Parse (fun _ => none) (fun _ => none) none reqAcceptXml
      = parseBody (fun _ => none) (fun _ => none) none reqAcceptXml
          (getFormat reqAcceptXml "Accept").fst :=
  c6_parse_fallback.1 _ _ _ _ (by decide)

/-- C7: for every success value exposing the cookie-map capability with a
non-nil map, and every entry of the map: an empty value yields a Set-Cookie
with path the root and MaxAge -1 (the immediate-expiry marker), and a
non-empty value yields a Set-Cookie with the value of the entry, path the
root and MaxAge exactly 86400 seconds. -/
theorem c7_cookie_entries (r : Request) (v : RespValue) (name value : String)
    (hset : v.hasCookieSetter = true) (hnil : v.cookiesNil = false)
    (hmem : (name, value) ∈ v.cookies) :
    (value = "" → GoCookie.mk name "nil" "/" (-1) ∈ (handler r (some v) none).setCookies) ∧
    (value ≠ "" → GoCookie.mk name value "/" 86400 ∈ (handler r (some v) none).setCookies) := by
  have hsc : (handler r (some v) none).setCookies
      = v.cookies.map (fun nv => cookieFor nv.fst nv.snd) := by
    rw [handler_setCookies]
    simp [emitCookies, hset, hnil]
  have hm : cookieFor name value ∈ (handler r (some v) none).setCookies := by
    rw [hsc]
    exact List.mem_map_of_mem _ hmem
  constructor
  · intro hv
    subst hv
    exact hm
  · intro hv
    have hlen : ¬ value.length = 0 := fun h0 => hv (string_length_zero value h0)
    have hck : cookieFor name value = GoCookie.mk name value "/" 86400 := by
      simp [cookieFor, hlen]
    rwa [hck] at hm

/-- C7, witnessed on a value carrying one deleted and one set cookie. -/
theorem c7_witness :
    (GoCookie.mk "a" "nil" "/" (-1) ∈ (handler reqAcceptJson (some cookieResp) none).setCookies) ∧
    (GoCookie.mk "b" "v" "/" 86400 ∈ (handler reqAcceptJson (some cookieResp) none).setCookies) :=
  ⟨(c7_cookie_entries reqAcceptJson cookieResp "a" "" rfl rfl (by decide)).1 rfl,
   (c7_cookie_entries reqAcceptJson cookieResp "b" "v" rfl rfl (by decide)).2 (by decide)⟩

/-- C8: for every request — hence every Accept header — and every success
value exposing the raw content-type capability, the written body is exactly
its raw bytes (so the format-based encoding, which would produce an
`encoded` body, is not applied) and the Content-Type header is exactly its
content-type string. -/
theorem c8_raw_content_type (r : Request) (v : RespValue) :
    (handler r (some { v with hasRespCType := true }) none).body = some (.raw v.rawData) ∧
    (handler r (some { v with hasRespCType := true }) none).contentType = some v.contentType := by
  have h := handler_raw_fields r { v with hasRespCType := true } rfl
  exact ⟨h.2.1, h.2.2⟩

/-- C9: the raw bypass replaces only the body-encoding step and the
Content-Type header.  For the same value with and without the raw
capability: the emitted cookies are identical, the Location headers are
identical, the raw response carries exactly the status the shared override
logic selects (the nonzero StatusCode() of the value, else 200), and
whenever the non-raw pipeline writes a status the raw pipeline writes the
same one.  (The lone asymmetry is negotiation-induced: with a FORM encode
format the non-raw write fails and writes no status at all, see C2.) -/
theorem c9_raw_bypass_frame (r : Request) (v : RespValue) :
    ((handler r (some { v with hasRespCType := true }) none).setCookies
      = (handler r (some { v with hasRespCType := false }) none).setCookies) ∧
    ((handler r (some { v with hasRespCType := true }) none).locationHeaders
      = (handler r (some { v with hasRespCType := false }) none).locationHeaders) ∧
    ((handler r (some { v with hasRespCType := true }) none).status
      = some (if v.hasResp = true ∧ v.statusCode ≠ 0 then v.statusCode else 200)) ∧
    (∀ s : Int,
      (handler r (some { v with hasRespCType := false }) none).status = some s →
      (handler r (some { v with hasRespCType := true }) none).status = some s) := by
  refine ⟨?_, ?_, ?_, ?_⟩
  · rw [handler_setCookies, handler_setCookies]
    rfl
  · rw [handler_locationHeaders, handler_locationHeaders]
    rfl
  · rw [(handler_raw_fields r { v with hasRespCType := true } rfl).1, shapeStatusLocation_fst]
  · intro s hs
    rw [(handler_nonraw_fields r (some { v with hasRespCType := false }) rfl).1] at hs
    by_cases hf : (getFormat r "Accept").fst = Format.form
    · rw [if_pos hf] at hs
      exact absurd hs (by simp)
    · rw [if_neg hf] at hs
      rw [(handler_raw_fields r { v with hasRespCType := true } rfl).1]
      exact hs

/-- C9, witnessed at a JSON-Accept request and a plain value: cookies agree
between raw and non-raw, and the raw status matches the 200 the non-raw
pipeline writes. -/
theorem c9_witness :
    ((handler reqAcceptJson (some { plainResp with hasRespCType := true }) none).setCookies
      = (handler reqAcceptJson (some { plainResp with hasRespCType := false }) none).setCookies) ∧
    ((handler reqAcceptJson (some { plainResp with hasRespCType := true }) none).status = some 200) :=
  ⟨(c9_raw_bypass_frame reqAcceptJson plainResp).1,
   (c9_raw_bypass_frame reqAcceptJson plainResp).2.2.2 200 (by decide)⟩

/-- C10: every cookie-map entry with an empty value is emitted as a deletion
cookie whose cookie value is the literal string nil (with MaxAge -1 and root
path), and no emitted cookie ever carries an empty value. -/
theorem c10_deletion_cookie_value (r : Request) (v : RespValue) (name : String)
    (hset : v.hasCookieSetter = true) (hnil : v.cookiesNil = false)
    (hmem : (name, "") ∈ v.cookies) :
    GoCookie.mk name "nil" "/" (-1) ∈ (handler r (some v) none).setCookies ∧
    ∀ c ∈ (handler r (some v) none).setCookies, c.value ≠ "" := by
  have hsc : (handler r (some v) none).setCookies
      = v.cookies.map (fun nv => cookieFor nv.fst nv.snd) := by
    rw [handler_setCookies]
    simp [emitCookies, hset, hnil]
  constructor
  · rw [hsc]
    exact List.mem_map_of_mem _ hmem
  · intro c hc
    rw [hsc] at hc
    rcases List.mem_map.1 hc with ⟨nv, _, rfl⟩
    by_cases h0 : nv.snd.length = 0
    · simp [cookieFor, h0]
    · simp only [cookieFor, if_neg h0]
      intro hv
      exact h0 (by rw [hv]; rfl)

/-- C10, witnessed on the value deleting cookie a. -/
theorem c10_witness :
    GoCookie.mk "a" "nil" "/" (-1) ∈ (handler reqAcceptXml (some cookieResp) none).setCookies :=
  (c10_deletion_cookie_value reqAcceptXml cookieResp "a" rfl rfl (by decide)).1

end Rest
